import Mathlib

/-!
Shallow embedding of the python-frame repository (a small Python 2 web
framework: DB session/transaction layer, ORM, routing/static files, JSON
API wrapper) together with proofs settling the frozen claims C1..C10.

Source files embedded: src/core/utils.py, src/core/db/mysql.py,
src/core/db/orm.py, src/core/db/web.py, src/core/apis.py.

Conventions of the embedding:
* Python exceptions become explicit `Except` results (`PyErr` below).
* Python attribute lookup on the relevant objects is modelled by explicit
  attribute-name tables taken from the class bodies, so that misspelled
  attribute accesses in the source (`_db_ctx.Init`, `_db_ctx.transaction`,
  `self.commit`, `logging.exeception`) surface as `AttributeError` values
  exactly where Python raises them.
* Strings that the code manipulates character by character (URLs, paths,
  identifiers) are modelled as `List Char`; byte contents as `List Nat`.
* Mutable thread-local state of the DB layer is passed explicitly as a
  `DbState` value carrying observation counters for commit and rollback.
-/

/-! ### Python error and value model -/

/-- Exceptions the embedded fragments can raise. -/
inductive PyErr where
  | attributeError (name : String)
  | typeError (msg : String)
deriving DecidableEq

/-- Python values appearing in DB rows. -/
inductive PyVal where
  | pyint (n : Int)
  | pybool (b : Bool)
  | pystr (s : String)
  | pynone
deriving DecidableEq

/-- Python 2 `isinstance(v, int)`: true for int and for bool (bool is a
subclass of int); false for strings and None. -/
def pyIsInt : PyVal → Bool
  | .pyint _ => true
  | .pybool _ => true
  | _ => false

/-- Association-list lookup over an arbitrary key type (first match). -/
def alookup {κ α : Type} [DecidableEq κ] : List (κ × α) → κ → Option α
  | [], _ => none
  | (k1, v1) :: rest, k => if k1 = k then some v1 else alookup rest k

/-! ### core/utils.py : class Dict

`Dict.__init__(self, names=(), values=(), **kwargs)` first initializes the
underlying dict from the keyword arguments and then executes
`for k, v in zip(names, values): self[k] = v`.  A Python dict assignment
overwrites the value of an existing key and otherwise adds a new entry; we
model the dict as an association list with position-preserving overwrite. -/

/-- Python dict item assignment `d[k] = v`: overwrite in place, else append. -/
def dinsert {α : Type} : List (String × α) → String → α → List (String × α)
  | [], k, v => [(k, v)]
  | (k1, v1) :: rest, k, v =>
      if k1 = k then (k1, v) :: rest else (k1, v1) :: dinsert rest k v

/-- One step of a sequence of dict assignments. -/
def insStep {α : Type} (d : List (String × α)) (p : String × α) : List (String × α) :=
  dinsert d p.1 p.2

/-- `Dict(names, values, **kwargs)`: the keyword entries are installed by the
`dict` superclass constructor, then the zipped positional pairs are assigned
one by one (so a positional entry overwrites a keyword entry of the same
key, and `zip` silently truncates to the shorter sequence). -/
def dictInit (kwargs : List (String × PyVal)) (names : List String)
    (values : List PyVal) : List (String × PyVal) :=
  (names.zip values).foldl insStep (kwargs.foldl insStep [])

/-! ### core/db/mysql.py : select_int

```
d = _select(sql, True, *args)        # Dict(names, values) for the fetched row
if len(d) != 1: raise MultiColumnsError(...)
v = d.values()[0]
if not isinstance(v, int): raise ColumnTypeError(...)
return d.values()[0]
```
The embedding takes the fetched row (column names from `cursor.description`
and the value tuple) as input; `_select` wraps them in `Dict(names, values)`. -/

/-- DB-layer error kinds raised by `select_int`. -/
inductive DBErr where
  | multiColumnsError
  | columnTypeError
deriving DecidableEq

/-- `select_int` applied to a fetched row with the given column names and
values. -/
def select_int_row (names : List String) (values : List PyVal) :
    Except DBErr PyVal :=
  let d := dictInit [] names values
  if d.length ≠ 1 then .error .multiColumnsError
  else
    let v := (d.map Prod.snd).headD .pynone
    if pyIsInt v then .ok v else .error .columnTypeError

/-! ### core/db/mysql.py : thread-local DB context, transactions, _update

`_DbCtx.__init__` sets instance attributes `connection` and `transactions`;
the class body defines methods `is_init`, `init`, `cleanup`, `cursor`.
There is no attribute named `Init` (capital) and none named `transaction`
(singular): looking either up raises `AttributeError`.

`_TransactionCtx` defines only `__enter__` and `__exit__` in its class body.
The `commit` and `rollback` functions of the source are indented inside the
body of `__exit__` (after its try/finally), so they are local functions of
`__exit__`, never attributes of the instance or the class: evaluating
`self.commit()` or `self.rollback()` raises `AttributeError`. -/

/-- Attribute names resolvable on `_db_ctx` (instance attributes set in
`_DbCtx.__init__` plus the methods of the class body). -/
def dbCtxAttrNames : List String :=
  ["connection", "transactions", "is_init", "init", "cleanup", "cursor"]

/-- Python `hasattr(_db_ctx, a)` / success of `_db_ctx.a` lookup. -/
def dbCtxHasAttr (a : String) : Bool := decide (a ∈ dbCtxAttrNames)

/-- Attribute names resolvable on a `_TransactionCtx` instance inside
`__exit__` (the `should_close_conn` instance attribute set in `__enter__`
plus the two methods of the class body). -/
def transactionCtxAttrNames : List String :=
  ["should_close_conn", "__enter__", "__exit__"]

/-- Success of `self.a` lookup on a `_TransactionCtx` instance. -/
def transactionCtxHasAttr (a : String) : Bool :=
  decide (a ∈ transactionCtxAttrNames)

/-- Thread-local DB state: whether `_db_ctx.connection` is initialized, the
transaction nesting counter, and observation counters for the commit and
rollback operations actually performed on the connection. -/
structure DbState where
  connected : Bool
  transactions : Nat
  commits : Nat
  rollbacks : Nat
deriving DecidableEq

/-- `_TransactionCtx.__enter__`: sets `should_close_conn = False`; when the
context is not initialized it evaluates `_db_ctx.Init()` (the class only
defines lowercase `init`, so this lookup raises); then increments the
nesting counter.  Returns the updated state and `should_close_conn`. -/
def transactionEnter (s : DbState) : Except PyErr (DbState × Bool) :=
  if !s.connected then
    if dbCtxHasAttr "Init" then
      -- not reachable: `_DbCtx` defines `init`, not `Init`
      .ok ({ s with connected := true, transactions := 0 + 1 }, true)
    else .error (.attributeError "Init")
  else
    .ok ({ s with transactions := s.transactions + 1 }, false)

/-- `_TransactionCtx.__exit__(exc_type, ...)`: decrements the counter; in a
try block, when the counter reaches 0 it evaluates `self.commit()` if no
exception occurred in the body, else `self.rollback()`; the finally clause
cleans the connection up when this scope opened it.  `commit` and
`rollback` are local functions of `__exit__` in the source, not attributes
of `self`, so both lookups raise `AttributeError`; what those nested
functions would do (commit, or rollback on commit failure) is kept in the
dead branches. -/
def transactionExit (shouldClose excOccurred : Bool) (s : DbState) :
    DbState × Option PyErr :=
  let s1 := { s with transactions := s.transactions - 1 }
  let (s2, err) :=
    if s1.transactions = 0 then
      if !excOccurred then
        if transactionCtxHasAttr "commit" then
          -- not reachable: would run `_db_ctx.connection.commit()`
          ({ s1 with commits := s1.commits + 1 }, none)
        else (s1, some (.attributeError "commit"))
      else
        if transactionCtxHasAttr "rollback" then
          -- not reachable: would run `_db_ctx.connection.rollback()`
          ({ s1 with rollbacks := s1.rollbacks + 1 }, none)
        else (s1, some (.attributeError "rollback"))
    else (s1, none)
  let s3 := if shouldClose then { s2 with connected := false } else s2
  (s3, err)

/-- `_update(sql, *args)` under its `@with_connection` decorator, applied
with the row count the cursor reports for the executed statement.  After
executing the statement the source tests `if _db_ctx.transaction == 0:`;
the context only defines `transactions` (plural), so the lookup raises
`AttributeError`; the cursor is closed by the finally clause and the
connection scope cleans up if it opened the connection.  The dead branch
keeps what the code would do if the attribute resolved. -/
def updateRun (rowcount : Nat) (s : DbState) : DbState × Except PyErr Nat :=
  let opened := !s.connected
  let s1 := { s with connected := true }
  if dbCtxHasAttr "transaction" then
    -- not reachable: `_DbCtx` defines `transactions`, not `transaction`
    let s2 := if s1.transactions = 0 then { s1 with commits := s1.commits + 1 } else s1
    let s3 := if opened then { s2 with connected := false } else s2
    (s3, .ok rowcount)
  else
    let s3 := if opened then { s1 with connected := false } else s1
    (s3, .error (.attributeError "transaction"))

/-! ### core/apis.py : APIError hierarchy and the api decorator -/

/-- The three fields every `APIError` carries. -/
structure ApiErrVal where
  error : String
  data : String
  message : String
deriving DecidableEq

/-- `APIValueError(field, message)` sets `error = "value:invalid"`,
`data = field`. -/
def APIValueError (field message : String) : ApiErrVal :=
  ⟨"value:invalid", field, message⟩

/-- `APIResourceNotFoundError(field, message)`. -/
def APIResourceNotFoundError (field message : String) : ApiErrVal :=
  ⟨"value:notfound", field, message⟩

/-- `APIPermissionError(message)`. -/
def APIPermissionError (message : String) : ApiErrVal :=
  ⟨"permission:forbidden", "permission", message⟩

/-- JSON values; the wrapper serializes these with `json.dumps`. -/
inductive Json where
  | jstr (s : String)
  | jnum (n : Int)
  | jbool (b : Bool)
  | jnull
  | jarr (elems : List Json)
  | jobj (fields : List (String × Json))

/-- The three ways a wrapped handler invocation can end. -/
inductive HandlerOutcome where
  | ret (v : Json)
  | raiseApi (e : ApiErrVal)
  | raiseOther (kind : String) (msg : String)

/-- Attributes of the Python `logging` module relevant here.  The module
defines `exception`, among others; it has no attribute `exeception`, the
name the source spells in the generic except clause. -/
def loggingAttrNames : List String :=
  ["debug", "info", "warning", "error", "exception", "critical", "log"]

/-- Success of `logging.a` lookup. -/
def loggingHasAttr (a : String) : Bool := decide (a ∈ loggingAttrNames)

/-- The `api` decorator around one handler invocation.  Result: the JSON
body (kept as a `Json` value; the response text is `json.dumps` of it) and
the content type assigned to `ctx.response`, or the exception that escapes
the wrapper.  On a normal return and on an `APIError` the body is computed
and then `ctx.response.content_type` is set; in the generic except clause
the source first evaluates `logging.exeception(e)`, which raises
`AttributeError` (misspelling of `exception`), so nothing is returned and
the content type is never set.  Even were the logging call fixed, the
envelope there uses `data=e.__class__`, a class object `json.dumps` cannot
serialize (TypeError); the dead branch records that. -/
def apiWrap (outcome : HandlerOutcome) : Except PyErr (Json × Option String) :=
  match outcome with
  | .ret v => .ok (v, some "application/json")
  | .raiseApi e =>
      .ok (.jobj [("error", .jstr e.error), ("data", .jstr e.data),
                  ("message", .jstr e.message)], some "application/json")
  | .raiseOther _kind _msg =>
      if loggingHasAttr "exeception" then
        -- not reachable: and `json.dumps(dict(..., data=e.__class__, ...))`
        -- would itself raise TypeError on the class object
        .error (.typeError "class object is not JSON serializable")
      else
        .error (.attributeError "exeception")

/-! ### core/db/orm.py : Field records and ModelMetaClass

`ModelMetaClass.__new__` iterates the class attributes; for each `Field`
value the source reads

```
if not v.name:
    v.name = k
    logging.info(...)
    if v.primary_key:
        ... duplicate check, coercion of updatable/nullable ...
        primary_key = v
    mapping[k] = v
```

that is, the logging, the primary-key handling and the `mapping[k] = v`
assignment are all nested inside `if not v.name:` — a `Field` constructed
with an explicit `name=...` is skipped entirely.  Afterwards the metaclass
fails if no primary key was recorded, pops every mapped key from the
attribute dict, and assigns `__table__` (explicit or the lower-cased class
name). -/

/-- One record-type field descriptor (the attributes `ModelMetaClass` and
DDL generation read). -/
structure FieldRec where
  name : Option String
  primary_key : Bool
  nullable : Bool
  updatable : Bool
  insertable : Bool
  ddl : String
  order : Nat
deriving DecidableEq

/-- A class-body attribute: a `Field` instance or anything else. -/
inductive ClsAttr where
  | fld (f : FieldRec)
  | other
deriving DecidableEq

/-- The attribute scan of `ModelMetaClass.__new__`, with the nesting of the
source reproduced: all field bookkeeping sits under `if not v.name:`. -/
def scanFields : List (String × ClsAttr) → Option FieldRec →
    List (String × FieldRec) →
    Except String (List (String × FieldRec) × Option FieldRec)
  | [], pk, mapping => .ok (mapping, pk)
  | (_, .other) :: rest, pk, mapping => scanFields rest pk mapping
  | (k, .fld v) :: rest, pk, mapping =>
      if v.name = none then
        let v1 := { v with name := some k }
        if v1.primary_key then
          if pk.isSome then
            .error "Cannot define more than 1 primary key in class"
          else
            let v2 := { v1 with updatable := false, nullable := false }
            scanFields rest (some v2) (mapping ++ [(k, v2)])
        else
          scanFields rest pk (mapping ++ [(k, v1)])
      else
        -- field with an explicit name: the whole block above is guarded by
        -- `if not v.name:` in the source, so the field is not scanned
        scanFields rest pk mapping

/-- The outcome of defining a record type. -/
structure ModelClass where
  table : String
  mapping : List (String × FieldRec)
  primaryKey : FieldRec
  residualAttrs : List (String × ClsAttr)
deriving DecidableEq

/-- `ModelMetaClass.__new__` for a non-`Model` class: scan the attributes,
fail when no primary key was recorded, strip the mapped keys from the
attribute dict (`for k in mapping.iterkeys(): attrs.pop(k)`), and pick the
table name. -/
def modelMetaNew (name : String) (tableAttr : Option String)
    (attrs : List (String × ClsAttr)) : Except String ModelClass :=
  match scanFields attrs none [] with
  | .error e => .error e
  | .ok (mapping, pk) =>
      match pk with
      | none => .error "Primary key not defined in class"
      | some p =>
          let table := tableAttr.getD name.toLower
          let residual := attrs.filter fun a => (alookup mapping a.1).isNone
          .ok ⟨table, mapping, p, residual⟩

/-- True when the definition succeeded (no definition-time failure). -/
def exceptIsOk {ε α : Type} : Except ε α → Bool
  | .ok _ => true
  | .error _ => false

/-- The mapped field names of a definition outcome (empty on failure). -/
def metaMappedKeys (r : Except String ModelClass) : List String :=
  match r with
  | .ok c => c.mapping.map Prod.fst
  | .error _ => []

/-! ### core/db/orm.py : _gen_sql

```
sql = ['-- generating SQL for %s:' % table_name, 'create table `%s` (' % table_name]
for f in sorted(mapping.values, lambda x, y: cmp(x._order, y._order)):
    ...
    sql.append(... column line ...)
    sql.append('  primary key(`%s`)' % pk)
    sql.append(');')
    return '\n'.join(sql)
```

`mapping.values` lacks the call parentheses, so `sorted` receives the bound
method object and raises `TypeError` before anything else happens (were it
a list of two or more fields, the comparator would raise `AttributeError`
because `Field` defines `order`, not `_order`; and the primary-key line,
the closing line and the return sit inside the loop body, so at most one
column line would ever be emitted). -/

/-- What the expression `mapping.values` (no call) hands to `sorted`. -/
inductive PyIterable where
  | pylist (l : List FieldRec)
  | boundMethod (desc : String)

/-- The expression `mapping.values` evaluates to the bound method object. -/
def dictValuesMethod (_mapping : List (String × FieldRec)) : PyIterable :=
  .boundMethod "dict.values"

/-- `sorted(it, lambda x, y: cmp(x._order, y._order))`: a non-iterable
argument raises TypeError; on a real list the comparator is only invoked
for two or more elements, and its `x._order` lookup raises AttributeError
(`Field` objects define `order`). -/
def pySortedByOrder : PyIterable → Except PyErr (List FieldRec)
  | .pylist l => if l.length ≤ 1 then .ok l else .error (.attributeError "_order")
  | .boundMethod _ => .error (.typeError "argument is not iterable")

/-- Rendering of `'%s' % f.name` (an unset name prints as `None`). -/
def fieldNameStr (f : FieldRec) : String := f.name.getD "None"

/-- The loop body of `_gen_sql` as written: on a nonempty field sequence it
emits the header, one column line for the first field only, then the
primary-key line, the closing line and returns from inside the loop; on an
empty sequence the function falls through and returns Python `None`. -/
def genSqlLoop (tableName : String) (fs : List FieldRec) : Option String :=
  match fs with
  | [] => none
  | f :: _ =>
      let pkStr := if f.primary_key then fieldNameStr f else "None"
      let colLine :=
        if f.nullable then "  `" ++ fieldNameStr f ++ "` " ++ f.ddl ++ ","
        else "  `" ++ fieldNameStr f ++ "` " ++ f.ddl ++ " not null,"
      some (String.intercalate "\n"
        ["-- generating SQL for " ++ tableName ++ ":",
         "create table `" ++ tableName ++ "` (",
         colLine,
         "  primary key(`" ++ pkStr ++ "`)",
         ");"])

/-- `_gen_sql(table_name, mapping)`. -/
def gen_sql (tableName : String) (mapping : List (String × FieldRec)) :
    Except PyErr (Option String) :=
  match pySortedByOrder (dictValuesMethod mapping) with
  | .error e => .error e
  | .ok fs => .ok (genSqlLoop tableName fs)

/-! ### core/db/web.py : route patterns and matching

`_re_route = re.compile(r'(\:[a-zA-Z_]\w*)')`; `_build_regex` splits the
path on that pattern and assembles an anchored regex in which every
`:name` placeholder becomes the named group `(?P<name>[^\/]+)` and every
other character is kept literally (alphanumerics verbatim, anything else
escaped with a backslash, which leaves its meaning as the literal
character).  We embed the produced regex as a token list — one literal
token per plain character, one variable token per placeholder — and give
the Python `re` matching semantics of exactly that regex shape: anchored
at both ends, each group matching one or more characters other than the
slash, greedy with backtracking. -/

/-- A token of the compiled route pattern. -/
inductive RTok where
  | lit (c : Char)
  | rvar (name : List Char)
deriving DecidableEq

/-- Membership in the `\w` class of the route pattern: `[a-zA-Z0-9_]`. -/
def isWordChar (c : Char) : Bool :=
  (('a' ≤ c && c ≤ 'z') || ('A' ≤ c && c ≤ 'Z') || ('0' ≤ c && c ≤ '9') || c = '_')

/-- Membership in `[a-zA-Z_]`, the first character after the colon. -/
def isIdentStartChar (c : Char) : Bool :=
  (('a' ≤ c && c ≤ 'z') || ('A' ≤ c && c ≤ 'Z') || c = '_')

/-- Maximal run of `\w` characters and the remainder. -/
def wordRun : List Char → List Char × List Char
  | [] => ([], [])
  | c :: rest =>
      if isWordChar c then
        let (w, r) := wordRun rest
        (c :: w, r)
      else ([], c :: rest)

/-- Tokenization of a route path: a colon followed by `[a-zA-Z_]\w*` is a
placeholder, every other character is a literal (fuel decreases once per
emitted token; each token consumes at least one character). -/
def tokenizeGo : Nat → List Char → List RTok
  | 0, _ => []
  | _ + 1, [] => []
  | fuel + 1, c :: rest =>
      if c = ':' then
        match rest with
        | [] => [.lit ':']
        | d :: rest2 =>
            if isIdentStartChar d then
              let (w, r) := wordRun rest2
              .rvar (d :: w) :: tokenizeGo fuel r
            else .lit ':' :: tokenizeGo fuel rest
      else .lit c :: tokenizeGo fuel rest

/-- Token list of a route path. -/
def tokenizePath (p : List Char) : List RTok := tokenizeGo p.length p

/-- `Route.is_static`: `_re_route.search(path) is None`, i.e. the path
contains no placeholder. -/
def isStaticPath (p : List Char) : Bool :=
  (tokenizePath p).all fun t =>
    match t with
    | .lit _ => true
    | .rvar _ => false

/-- Anchored matching of a token list against a URL, returning the named
captures in order.  A variable token matches one or more characters other
than the slash, longest candidate first (greedy), with backtracking into
the remaining tokens; a literal token matches its character; the whole URL
must be consumed (the regex is anchored with the dollar sign).  Every
recursive call is on the token tail, so token-list length bounds the
needed fuel. -/
def matchToksGo : Nat → List RTok → List Char →
    Option (List (List Char × List Char))
  | 0, _, _ => none
  | _ + 1, [], [] => some []
  | _ + 1, [], _ :: _ => none
  | _ + 1, .lit _ :: _, [] => none
  | fuel + 1, .lit c :: ts, x :: xs =>
      if x = c then matchToksGo fuel ts xs else none
  | fuel + 1, .rvar n :: ts, s =>
      ((List.range s.length).reverse.map (· + 1)).findSome? fun k =>
        let pre := s.take k
        if pre.all (· ≠ '/') then
          (matchToksGo fuel ts (s.drop k)).map fun caps => (n, pre) :: caps
        else none

/-- `route.match(url)` for a compiled (dynamic) pattern. -/
def matchToks (ts : List RTok) (s : List Char) :
    Option (List (List Char × List Char)) :=
  matchToksGo (ts.length + 1) ts s

/-- Modelled from the spec: the URL dispatcher (the application layer,
`core/application.py`, is imported by the bootstrap and the routes module
but absent from src/) matches a route flagged static by exact string
equality of the URL with the route path instead of by regex, and matches a
dynamic route through its compiled pattern. -/
def routeMatch (path url : List Char) :
    Option (List (List Char × List Char)) :=
  if isStaticPath path then (if url = path then some [] else none)
  else matchToks (tokenizePath path) url

/-! ### core/db/web.py : StaticFileRoute and _static_file_generator -/

/-- Slash-splitting of a path (the components `os.path` semantics works
over). -/
def splitSlashGo (cur : List Char) : List Char → List (List Char)
  | [] => [cur.reverse]
  | c :: rest =>
      if c = '/' then cur.reverse :: splitSlashGo [] rest
      else splitSlashGo (c :: cur) rest

/-- Components of a path string. -/
def splitSlash (p : List Char) : List (List Char) := splitSlashGo [] p

/-- Kernel-style lexical resolution of an absolute path: empty components
and `.` are dropped, `..` removes the last kept component (at the root it
stays at the root).  This is how the operating system resolves the path a
`stat` call receives when no symlinks are involved. -/
def normComps (comps : List (List Char)) : List (List Char) :=
  comps.foldl
    (fun acc c =>
      if c = [] ∨ c = ['.'] then acc
      else if c = ['.', '.'] then acc.dropLast
      else acc ++ [c])
    []

/-- Resolved component list of an absolute path string. -/
def resolvePath (p : List Char) : List (List Char) := normComps (splitSlash p)

/-- `os.path.join(a, b)` for POSIX paths: an absolute second argument wins;
otherwise the parts are glued with a single slash. -/
def osPathJoin (a b : List Char) : List Char :=
  if b.head? = some '/' then b
  else if a = [] ∨ a.getLast? = some '/' then a ++ b
  else a ++ '/' :: b

/-- A model filesystem: the regular files, keyed by resolved absolute path
components, with their byte content. -/
def FileSys : Type := List (List (List Char) × List Nat)

/-- The literal `/static/`. -/
def staticSeg : List Char := ['/', 's', 't', 'a', 't', 'i', 'c', '/']

/-- `StaticFileRoute.match(url)`: any URL starting with `/static/` matches,
capturing `url[1:]` (the path with its leading slash removed). -/
def staticMatch (url : List Char) : Option (List Char) :=
  if staticSeg.isPrefixOf url then some (url.drop 1) else none

/-- Chunking with explicit fuel; each step removes at least one element
from a nonempty list, so the list length is sufficient fuel. -/
def chunksGo {α : Type} : Nat → List α → List (List α)
  | 0, _ => []
  | fuel + 1, l =>
      if l.isEmpty then []
      else l.take 8192 :: chunksGo fuel (l.drop 8192)

/-- `_static_file_generator`: the successive `f.read(8192)` blocks of the
file content, stopping at the first empty read. -/
def chunksOf {α : Type} (l : List α) : List (List α) := chunksGo l.length l

/-- `StaticFileRoute.__call__(args[0])`: join the captured path under the
document root, 404 unless `os.path.isfile` accepts the joined path (the
filesystem resolves it lexically first; no containment check against the
document root is made), else stream the content in 8192-byte blocks. -/
def staticCall (fs : FileSys) (root arg : List Char) :
    Except Nat (List (List Nat)) :=
  let fpath := osPathJoin root arg
  match alookup fs (resolvePath fpath) with
  | none => .error 404
  | some content => .ok (chunksOf content)

/-- The static-file route end to end: `match` then `__call__`; `none` when
the URL is not a `/static/` URL at all. -/
def staticServe (fs : FileSys) (root url : List Char) :
    Option (Except Nat (List (List Nat))) :=
  (staticMatch url).map fun arg => staticCall fs root arg

/-! ### core/db/mysql.py : next_id

`'%015d%s000' % (int(t * 1000), uuid.uuid4().hex)`: the decimal rendering
of the millisecond timestamp, zero-padded on the left to a minimum width
of 15 (wider values print in full), then the 32 hexadecimal characters of
the random token, then the literal suffix `000`.  The embedding takes the
already-computed millisecond value and the token characters as inputs. -/

/-- Decimal digits of a natural number, most significant first. -/
def decDigits (n : Nat) : List Nat :=
  if _h : n < 10 then [n] else decDigits (n / 10) ++ [n % 10]
termination_by n
decreasing_by exact Nat.div_lt_self (by omega) (by omega)

/-- The digit list `%015d` produces: left-padded with zeros to width 15
(no padding once the number has 15 or more digits). -/
def fmt015 (n : Nat) : List Nat :=
  List.replicate (15 - (decDigits n).length) 0 ++ decDigits n

/-- Fixed-width digit rendering, most significant first: `paddedDigits k n`
is the base-10 expansion of `n mod 10 ^ k` over exactly `k` positions. -/
def paddedDigits : Nat → Nat → List Nat
  | 0, _ => []
  | k + 1, n => n / 10 ^ k :: paddedDigits k (n % 10 ^ k)

/-- `next_id` for millisecond value `ms` and random token `token`. -/
def next_id (ms : Nat) (token : List Char) : List Char :=
  (fmt015 ms).map Nat.digitChar ++ token ++ ['0', '0', '0']

/-! ### Concrete inputs used by witnesses and counterexamples -/

/-- A 32-character hexadecimal token (a possible `uuid.uuid4().hex`). -/
def hexTokA : List Char := String.data "0123456789abcdef0123456789abcdef"

/-- Another 32-character hexadecimal token. -/
def hexTokB : List Char := String.data "fedcba9876543210fedcba9876543210"

/-- Class body of a record type declaring two primary-key fields, the
second with an explicit `name` argument:
`id = IntegerField(primary_key=True)` and
`code = StringField(name="code2", primary_key=True)`. -/
def twoPkAttrs : List (String × ClsAttr) :=
  [("id", .fld ⟨none, true, true, true, true, "bigint", 0⟩),
   ("code", .fld ⟨some "code2", true, false, true, true, "varchar(255)", 1⟩)]

/-! ## Theorems -/

/-- C1.  The transaction scope machinery of `_TransactionCtx` cannot settle
any transaction: with the thread connection already initialized, entering
an outer and an inner scope succeeds and the inner exit is a no-op, but
the outermost exit — the one the claim says performs the single commit —
raises `AttributeError` at `self.commit()` (the `commit`/`rollback`
functions are nested inside `__exit__` in the source and never become
attributes), leaving the commit counter at zero; the error path likewise
raises at `self.rollback()` instead of rolling back; and entering a scope
on a fresh thread context raises `AttributeError` at `_db_ctx.Init()`. -/
theorem c1_transaction_nesting_code_bug :
    transactionEnter ⟨true, 0, 0, 0⟩ = .ok (⟨true, 1, 0, 0⟩, false)
  ∧ transactionEnter ⟨true, 1, 0, 0⟩ = .ok (⟨true, 2, 0, 0⟩, false)
  ∧ transactionExit false false ⟨true, 2, 0, 0⟩ = (⟨true, 1, 0, 0⟩, none)
  ∧ transactionExit false false ⟨true, 1, 0, 0⟩ =
      (⟨true, 0, 0, 0⟩, some (.attributeError "commit"))
  ∧ transactionExit false true ⟨true, 1, 0, 0⟩ =
      (⟨true, 0, 0, 0⟩, some (.attributeError "rollback"))
  ∧ transactionEnter ⟨false, 0, 0, 0⟩ = .error (.attributeError "Init") :=
  ⟨rfl, rfl, rfl, rfl, rfl, rfl⟩

/-- C3.  The JSON API decorator: a normal return is passed through as the
serialized body with the content type set; `APIValueError("email", "bad
format")` produces exactly the claimed envelope; but any non-domain error
makes the generic except clause evaluate `logging.exeception(e)` — a
misspelling of `logging.exception` — so the wrapper raises
`AttributeError` instead of logging and returning the `internalerror`
envelope. -/
theorem c3_api_wrapper_code_bug :
    (∀ v : Json, apiWrap (.ret v) = .ok (v, some "application/json"))
  ∧ apiWrap (.raiseApi (APIValueError "email" "bad format")) =
      .ok (.jobj [("error", .jstr "value:invalid"), ("data", .jstr "email"),
                  ("message", .jstr "bad format")], some "application/json")
  ∧ (∀ kind msg, apiWrap (.raiseOther kind msg) =
      .error (.attributeError "exeception")) :=
  ⟨fun _ => rfl, rfl, fun _ _ => rfl⟩

/-- C4.  `update`/`_update` never auto-commits and never returns the row
count: after executing the statement it tests `_db_ctx.transaction == 0`,
but the context attribute is `transactions` (plural), so the lookup raises
`AttributeError` at depth 0 and at positive depth alike, with the commit
counter unchanged. -/
theorem c4_update_autocommit_code_bug :
    updateRun 3 ⟨false, 0, 0, 0⟩ =
      (⟨false, 0, 0, 0⟩, .error (.attributeError "transaction"))
  ∧ updateRun 3 ⟨true, 2, 0, 0⟩ =
      (⟨true, 2, 0, 0⟩, .error (.attributeError "transaction"))
  ∧ (∀ r s, (updateRun r s).2 = .error (.attributeError "transaction")) :=
  ⟨rfl, rfl, fun _ _ => rfl⟩

/-- C5.  Defining a record type with two primary-key-marked fields does
not fail when one of them carries an explicit `name` argument: the whole
mapping/primary-key block of `ModelMetaClass.__new__` is nested under
`if not v.name:`, so the named field is never scanned and the definition
succeeds with only the unnamed field mapped — the claim requires a
definition-time failure for every such type.  The zero-primary-key path
does fail as claimed. -/
theorem c5_primary_key_code_bug :
    exceptIsOk (modelMetaNew "Account" (some "account") twoPkAttrs) = true
  ∧ metaMappedKeys (modelMetaNew "Account" (some "account") twoPkAttrs) = ["id"]
  ∧ modelMetaNew "Empty" none [("name", ClsAttr.other)] =
      .error "Primary key not defined in class" :=
  ⟨rfl, rfl, rfl⟩

/-- C6.  `_gen_sql` never emits any CREATE TABLE statement: the call
`sorted(mapping.values, ...)` passes the bound method object (the call
parentheses are missing), so every invocation raises `TypeError` before
any SQL line is assembled. -/
theorem c6_gen_sql_code_bug (tableName : String)
    (mapping : List (String × FieldRec)) :
    gen_sql tableName mapping = .error (.typeError "argument is not iterable") :=
  rfl

/-! ### Lemmas about the Dict embedding -/

/-- Lookup after a dict assignment: the assigned key reads the new value,
every other key is untouched. -/
theorem alookup_dinsert {α : Type} (d : List (String × α)) (k : String)
    (v : α) (k1 : String) :
    alookup (dinsert d k v) k1 = if k = k1 then some v else alookup d k1 := by
  induction d with
  | nil => by_cases h : k = k1 <;> simp [dinsert, alookup, h]
  | cons p rest ih =>
      obtain ⟨kp, vp⟩ := p
      by_cases hp : kp = k
      · subst hp
        by_cases h : kp = k1 <;> simp [dinsert, alookup, h]
      · by_cases h : kp = k1
        · subst h
          simp [dinsert, alookup, hp, Ne.symm hp]
        · simp [dinsert, alookup, hp, h, ih]

/-- Lookup distributes over append, first list first. -/
theorem alookup_append {κ α : Type} [DecidableEq κ]
    (l1 l2 : List (κ × α)) (k : κ) :
    alookup (l1 ++ l2) k =
      match alookup l1 k with
      | some v => some v
      | none => alookup l2 k := by
  induction l1 with
  | nil => simp [alookup]
  | cons p rest ih =>
      obtain ⟨kp, vp⟩ := p
      by_cases h : kp = k <;> simp [alookup, h, ih]

/-- Lookup after a sequence of dict assignments: the last assignment of the
key wins, and keys never assigned read from the initial dict. -/
theorem alookup_foldl_insStep {α : Type} (pairs : List (String × α))
    (d : List (String × α)) (k : String) :
    alookup (pairs.foldl insStep d) k =
      match alookup pairs.reverse k with
      | some v => some v
      | none => alookup d k := by
  induction pairs generalizing d with
  | nil => simp [alookup]
  | cons p rest ih =>
      obtain ⟨kp, vp⟩ := p
      rw [List.foldl_cons, ih, List.reverse_cons, alookup_append]
      cases hrest : alookup rest.reverse k with
      | some v => rfl
      | none =>
          by_cases h : kp = k <;>
            simp [alookup, h, insStep, alookup_dinsert]

/-- Zipping truncates both sequences to the shorter length. -/
theorem zip_take_eq {α β : Type} (l1 : List α) (l2 : List β) :
    l1.zip l2 = (l1.take l2.length).zip (l2.take l1.length) := by
  induction l1 generalizing l2 with
  | nil => simp
  | cons a rest ih =>
      cases l2 with
      | nil => simp
      | cons b rest2 => simp [List.zip_cons_cons, ih rest2]

/-- Assigning a fresh key appends it at the end. -/
theorem dinsert_of_alookup_none {α : Type} (d : List (String × α))
    (k : String) (v : α) (h : alookup d k = none) :
    dinsert d k v = d ++ [(k, v)] := by
  induction d with
  | nil => rfl
  | cons p rest ih =>
      obtain ⟨kp, vp⟩ := p
      by_cases hp : kp = k
      · simp [alookup, hp] at h
      · simp [alookup, hp] at h
        simp [dinsert, hp, ih h]

/-- A sequence of assignments with pairwise distinct keys, none present in
the initial dict, appends the pairs in order. -/
theorem foldl_insStep_of_nodup {α : Type} (pairs : List (String × α)) :
    ∀ d : List (String × α), (pairs.map Prod.fst).Nodup →
      (∀ k ∈ pairs.map Prod.fst, alookup d k = none) →
      pairs.foldl insStep d = d ++ pairs := by
  induction pairs with
  | nil => simp
  | cons p rest ih =>
      intro d hnd hfresh
      obtain ⟨kp, vp⟩ := p
      rw [List.foldl_cons]
      have hd : insStep d (kp, vp) = d ++ [(kp, vp)] :=
        dinsert_of_alookup_none d kp vp (hfresh kp (by simp))
      rw [hd, ih (d ++ [(kp, vp)]) (by simpa using hnd.of_cons)]
      · simp
      · intro k hk
        rw [alookup_append]
        have hkkp : kp ≠ k := by
          simp only [List.map_cons, List.nodup_cons] at hnd
          exact fun he => hnd.1 (he ▸ hk)
        have : alookup d k = none := hfresh k (by simp [hk])
        simp [this, alookup, hkkp]

/-- C10.  `Dict(names, values, **kwargs)` stores exactly the
`min(len(names), len(values))` zipped positional pairs — surplus names or
values beyond the shorter sequence never influence the result and raise no
error — and a positional pair whose key collides with a keyword entry wins,
because the keyword entries are installed first: any key assigned by the
positional loop finally reads its last positional value. -/
theorem c10_dict_init (kwargs : List (String × PyVal)) (names : List String)
    (values : List PyVal) :
    (names.zip values).length = min names.length values.length
  ∧ dictInit kwargs names values =
      dictInit kwargs (names.take values.length) (values.take names.length)
  ∧ (∀ k v, alookup (names.zip values).reverse k = some v →
      alookup (dictInit kwargs names values) k = some v) := by
  refine ⟨List.length_zip _ _, ?_, ?_⟩
  · unfold dictInit
    rw [← zip_take_eq]
  · intro k v h
    unfold dictInit
    rw [alookup_foldl_insStep, h]

/-- Witness for C10 at concrete inputs: three values against two names
store two pairs, and the positional value 10 for key `a` overrides the
keyword value 1. -/
theorem c10_dict_init_witness :
    (["a", "b"].zip [PyVal.pyint 10, PyVal.pyint 20, PyVal.pyint 30]).length =
      min 2 3
  ∧ alookup (dictInit [("a", PyVal.pyint 1)] ["a", "b"]
      [PyVal.pyint 10, PyVal.pyint 20, PyVal.pyint 30]) "a" =
      some (PyVal.pyint 10) :=
  ⟨(c10_dict_init [("a", PyVal.pyint 1)] ["a", "b"]
      [PyVal.pyint 10, PyVal.pyint 20, PyVal.pyint 30]).1,
   (c10_dict_init [("a", PyVal.pyint 1)] ["a", "b"]
      [PyVal.pyint 10, PyVal.pyint 20, PyVal.pyint 30]).2.2 "a"
      (PyVal.pyint 10) (by decide)⟩

/-- C8 counterexample.  A fetched row with two columns that share one name
(for example `select 1, 2` aliased twice to `a`, or `select x, x`) does
not fail with the Multiple-Columns error: `Dict(names, values)` collapses
the duplicate key, `len(d)` is 1, and the call returns the second value. -/
theorem c8_counterexample_duplicate_columns :
    select_int_row ["a", "a"] [.pyint 1, .pyint 2] = .ok (.pyint 2)
  ∧ select_int_row ["a", "a"] [.pyint 1, .pyint 2] ≠
      .error .multiColumnsError := by
  refine ⟨rfl, ?_⟩
  intro h
  rw [show select_int_row ["a", "a"] [.pyint 1, .pyint 2] = .ok (.pyint 2)
    from rfl] at h
  exact Except.noConfusion h

/-- C8 amended.  `select_int` on a row of two or more columns with
pairwise distinct names fails with the Multiple-Columns error (duplicate
column names collapse in the row dict and can slip through); on a single
column whose value is not an integer it fails with the Column-Type error;
on a single integer column it returns that integer. -/
theorem c8_select_int_amended (names : List String) (values : List PyVal) :
    (names.Nodup → names.length = values.length → 2 ≤ names.length →
        select_int_row names values = .error .multiColumnsError)
  ∧ (∀ nm v, pyIsInt v = false →
        select_int_row [nm] [v] = .error .columnTypeError)
  ∧ (∀ nm k, select_int_row [nm] [.pyint k] = .ok (.pyint k)) := by
  refine ⟨?_, ?_, ?_⟩
  · intro hnd hlen h2
    have hkeys : (names.zip values).map Prod.fst = names :=
      List.map_fst_zip _ _ (le_of_eq hlen)
    have hd : dictInit [] names values = names.zip values := by
      unfold dictInit
      rw [List.foldl_nil,
        foldl_insStep_of_nodup _ [] (by rw [hkeys]; exact hnd)
          (by intro k _; rfl)]
      simp
    simp only [select_int_row]
    rw [hd, List.length_zip, ← hlen, Nat.min_self, if_pos (by omega)]
  · intro nm v h
    simp [select_int_row, dictInit, insStep, dinsert, h]
  · intro nm k
    rfl

/-- Witness for C8 at concrete inputs: two distinct columns, a single text
column, and a single integer column. -/
theorem c8_select_int_witness :
    select_int_row ["x", "y"] [.pyint 1, .pyint 2] = .error .multiColumnsError
  ∧ select_int_row ["c"] [.pystr "t"] = .error .columnTypeError
  ∧ select_int_row ["c"] [.pyint 7] = .ok (.pyint 7) :=
  ⟨(c8_select_int_amended ["x", "y"] [.pyint 1, .pyint 2]).1 (by decide)
      (by decide) (by decide),
   (c8_select_int_amended ["c"] [.pystr "t"]).2.1 "c" (.pystr "t") (by decide),
   (c8_select_int_amended ["c"] [.pyint 7]).2.2 "c" 7⟩

/-! ### Lemmas about the block generator -/

/-- The generated blocks concatenate back to the input. -/
theorem chunksGo_flatten {α : Type} :
    ∀ (fuel : Nat) (l : List α), l.length ≤ fuel →
      (chunksGo fuel l).flatten = l := by
  intro fuel
  induction fuel with
  | zero =>
      intro l h
      cases l with
      | nil => rfl
      | cons a t => simp at h
  | succ fuel ih =>
      intro l h
      cases l with
      | nil => rfl
      | cons a t =>
          simp only [chunksGo, List.isEmpty_cons, Bool.false_eq_true,
            if_false, List.flatten_cons]
          rw [ih ((a :: t).drop 8192) (by simp at h ⊢; omega)]
          exact List.take_append_drop _ _

/-- Every generated block is nonempty and at most 8192 long. -/
theorem chunksGo_mem {α : Type} :
    ∀ (fuel : Nat) (l : List α) (c : List α), c ∈ chunksGo fuel l →
      c ≠ [] ∧ c.length ≤ 8192 := by
  intro fuel
  induction fuel with
  | zero => intro l c h; simp [chunksGo] at h
  | succ fuel ih =>
      intro l c h
      cases l with
      | nil => simp [chunksGo] at h
      | cons a t =>
          simp only [chunksGo, List.isEmpty_cons, Bool.false_eq_true,
            if_false, List.mem_cons] at h
          rcases h with h | h
          · subst h
            constructor
            · refine List.length_pos.mp ?_
              rw [List.length_take]
              simp
            · rw [List.length_take]
              omega
          · exact ih _ _ h

/-- The chunk generator produces nothing from an empty list. -/
theorem chunksGo_nil {α : Type} (fuel : Nat) :
    chunksGo fuel ([] : List α) = [] := by
  cases fuel <;> rfl

/-- Every block except the last is exactly 8192 long. -/
theorem chunksGo_getD {α : Type} :
    ∀ (fuel : Nat) (l : List α) (i : Nat),
      i + 1 < (chunksGo fuel l).length →
      ((chunksGo fuel l).getD i []).length = 8192 := by
  intro fuel
  induction fuel with
  | zero => intro l i h; simp [chunksGo] at h
  | succ fuel ih =>
      intro l i h
      cases l with
      | nil => simp [chunksGo] at h
      | cons a t =>
          simp only [chunksGo, List.isEmpty_cons, Bool.false_eq_true,
            if_false] at h ⊢
          cases i with
          | zero =>
              rw [List.getD_cons_zero, List.length_take]
              simp only [List.length_cons] at h ⊢
              have hne : chunksGo fuel ((a :: t).drop 8192) ≠ [] := by
                intro hnil
                rw [hnil] at h
                simp at h
              have hd : (a :: t).drop 8192 ≠ [] := by
                intro hnil
                exact hne (hnil ▸ chunksGo_nil fuel)
              have : 8192 < (a :: t).length := by
                by_contra hle
                exact hd (List.drop_eq_nil_of_le (by omega))
              simp only [List.length_cons] at this
              omega
          | succ i =>
              rw [List.getD_cons_succ]
              exact ih _ i (by simpa using h)

/-- `_static_file_generator` blocks of a content list: concatenation. -/
theorem chunksOf_flatten {α : Type} (l : List α) : (chunksOf l).flatten = l :=
  chunksGo_flatten l.length l le_rfl

/-- `_static_file_generator` blocks: size bound and nonemptiness. -/
theorem chunksOf_mem {α : Type} (l : List α) (c : List α)
    (h : c ∈ chunksOf l) : c ≠ [] ∧ c.length ≤ 8192 :=
  chunksGo_mem l.length l c h

/-- `_static_file_generator` blocks: all blocks before the last are full. -/
theorem chunksOf_getD {α : Type} (l : List α) (i : Nat)
    (h : i + 1 < (chunksOf l).length) : ((chunksOf l).getD i []).length = 8192 :=
  chunksGo_getD l.length l i h

/-- C2 counterexample.  With the regular file `/etc/passwd` present and a
document root `/www`, the traversal request `/static/../../etc/passwd`
resolves outside the document root, yet the route streams the file
instead of failing with 404: `StaticFileRoute.__call__` checks only
`os.path.isfile` on the joined path and never checks containment. -/
theorem c2_counterexample_traversal_served :
    staticServe [(["etc".data, "passwd".data], [114, 111, 111, 116])]
        "/www".data "/static/../../etc/passwd".data =
      some (.ok [[114, 111, 111, 116]])
  ∧ List.isPrefixOf (resolvePath "/www".data)
      (resolvePath (osPathJoin "/www".data
        ("/static/../../etc/passwd".data.drop 1))) = false :=
  ⟨rfl, by decide⟩

/-- C2 amended.  For a `/static/` URL the route yields 404 exactly when
the joined path `os.path.join(root, url[1:])` does not resolve to a
regular file — no containment check against the document root is made, so
a traversal request resolving to a regular file outside the root is
served — and whenever the joined path does resolve to a regular file the
route streams precisely the file content as nonempty blocks of at most
8192 bytes, all blocks except the last exactly 8192 bytes, whose
concatenation is the file content (hence total length equals file size). -/
theorem c2_static_file_amended (fs : FileSys) (root url : List Char)
    (hstatic : staticSeg.isPrefixOf url = true) :
    (alookup fs (resolvePath (osPathJoin root (url.drop 1))) = none →
        staticServe fs root url = some (.error 404))
  ∧ (∀ content,
      alookup fs (resolvePath (osPathJoin root (url.drop 1))) = some content →
        staticServe fs root url = some (.ok (chunksOf content))
      ∧ (chunksOf content).flatten = content
      ∧ (∀ c ∈ chunksOf content, c ≠ [] ∧ c.length ≤ 8192)
      ∧ (∀ i, i + 1 < (chunksOf content).length →
          ((chunksOf content).getD i []).length = 8192)) := by
  constructor
  · intro h
    rw [List.drop_one] at h
    simp [staticServe, staticMatch, hstatic, staticCall, h]
  · intro content h
    rw [List.drop_one] at h
    refine ⟨?_, chunksOf_flatten content, fun c hc => chunksOf_mem content c hc,
      fun i hi => chunksOf_getD content i hi⟩
    simp [staticServe, staticMatch, hstatic, staticCall, h]

/-- Witness for C2 at concrete inputs: a missing file under `/static/`
yields 404, and an existing three-byte file under `/static/` is streamed
as the single block equal to its content. -/
theorem c2_static_file_witness :
    staticServe [(["www".data, "static".data, "a.txt".data], [1, 2, 3])]
        "/www".data "/static/b.txt".data = some (.error 404)
  ∧ staticServe [(["www".data, "static".data, "a.txt".data], [1, 2, 3])]
        "/www".data "/static/a.txt".data = some (.ok (chunksOf [1, 2, 3]))
  ∧ (chunksOf ([1, 2, 3] : List Nat)).flatten = [1, 2, 3] :=
  ⟨(c2_static_file_amended
      [(["www".data, "static".data, "a.txt".data], [1, 2, 3])]
      "/www".data "/static/b.txt".data (by decide)).1 (by decide),
   ((c2_static_file_amended
      [(["www".data, "static".data, "a.txt".data], [1, 2, 3])]
      "/www".data "/static/a.txt".data (by decide)).2 [1, 2, 3] (by decide)).1,
   ((c2_static_file_amended
      [(["www".data, "static".data, "a.txt".data], [1, 2, 3])]
      "/www".data "/static/a.txt".data (by decide)).2 [1, 2, 3] (by decide)).2.1⟩

/-! ### Lemmas about route matching -/

/-- Every value captured by a placeholder group is a nonempty run of
characters other than the slash (the group is `[^\/]+`). -/
theorem matchToksGo_caps :
    ∀ (fuel : Nat) (ts : List RTok) (url : List Char)
      (caps : List (List Char × List Char)),
      matchToksGo fuel ts url = some caps →
      ∀ nm v, (nm, v) ∈ caps → v ≠ [] ∧ '/' ∉ v := by
  intro fuel
  induction fuel with
  | zero => intro ts url caps h; simp [matchToksGo] at h
  | succ fuel ih =>
      intro ts url caps h nm v hmem
      cases ts with
      | nil =>
          cases url with
          | nil =>
              simp only [matchToksGo, Option.some.injEq] at h
              rw [← h] at hmem
              simp at hmem
          | cons x xs => simp [matchToksGo] at h
      | cons t ts =>
          cases t with
          | lit c =>
              cases url with
              | nil => simp [matchToksGo] at h
              | cons x xs =>
                  simp only [matchToksGo] at h
                  split at h
                  · exact ih ts xs caps h nm v hmem
                  · simp at h
          | rvar n =>
              simp only [matchToksGo] at h
              rw [List.findSome?_eq_some_iff] at h
              obtain ⟨l1, k, l2, hsplit, hfk, -⟩ := h
              have hkmem : k ∈ (List.range url.length).reverse.map (· + 1) := by
                rw [hsplit]
                simp
              obtain ⟨i, hi, hik⟩ := List.mem_map.mp hkmem
              rw [List.mem_reverse, List.mem_range] at hi
              split at hfk
              · rename_i hall
                rw [Option.map_eq_some'] at hfk
                obtain ⟨caps', hrec, hcaps⟩ := hfk
                rw [← hcaps] at hmem
                rcases List.mem_cons.mp hmem with hhd | htl
                · have hv : v = url.take k := congrArg Prod.snd hhd
                  subst hv
                  constructor
                  · rw [← hik]
                    cases url with
                    | nil => simp at hi
                    | cons a t => simp [List.take_succ_cons]
                  · intro hin
                    have := List.all_eq_true.mp hall _ hin
                    simp at this
                · exact ih ts (url.drop k) caps' hrec nm v htl
              · simp at hfk

/-- C7.  Route matching: `/path/to/:file` matches `/path/to/report.pdf`
capturing `file = "report.pdf"`; `/:user/:comments/list` matches
`/alice/5/list` capturing `user = "alice"` and `comments = "5"`; every
placeholder capture is a nonempty run of non-slash characters; and a route
whose path has no placeholder is matched exactly when the URL equals the
path (exact string equality, never a partial regex match). -/
theorem c7_route_matching :
    routeMatch "/path/to/:file".data "/path/to/report.pdf".data =
      some [("file".data, "report.pdf".data)]
  ∧ routeMatch "/:user/:comments/list".data "/alice/5/list".data =
      some [("user".data, "alice".data), ("comments".data, "5".data)]
  ∧ (∀ path url, isStaticPath path = true →
      ((routeMatch path url).isSome = true ↔ url = path))
  ∧ (∀ ts url caps nm v, matchToks ts url = some caps → (nm, v) ∈ caps →
      v ≠ [] ∧ '/' ∉ v) := by
  refine ⟨by decide, by decide, ?_, ?_⟩
  · intro path url h
    simp only [routeMatch, h, if_true]
    by_cases he : url = path <;> simp [he]
  · intro ts url caps nm v h hm
    exact matchToksGo_caps _ ts url caps h nm v hm

/-- Witness for C7 at concrete inputs: the placeholder-free path `/home`
matches itself, and the capture of the first example is a nonempty
slash-free segment. -/
theorem c7_route_matching_witness :
    (routeMatch "/home".data "/home".data).isSome = true
  ∧ ("report.pdf".data ≠ [] ∧ '/' ∉ "report.pdf".data) :=
  ⟨(c7_route_matching.2.2.1 "/home".data "/home".data (by decide)).mpr rfl,
   c7_route_matching.2.2.2 (tokenizePath "/path/to/:file".data)
     "/path/to/report.pdf".data [("file".data, "report.pdf".data)]
     "file".data "report.pdf".data (by decide) (by decide)⟩

/-! ### Lemmas about the identifier rendering -/

/-- Unfolding equation of `decDigits`. -/
theorem decDigits_def (n : Nat) :
    decDigits n = if n < 10 then [n] else decDigits (n / 10) ++ [n % 10] := by
  rw [decDigits]
  by_cases h : n < 10 <;> simp [h]

/-- The digit list is never empty. -/
theorem decDigits_ne_nil (n : Nat) : decDigits n ≠ [] := by
  rw [decDigits_def]
  split <;> simp

/-- A number below `10 ^ (k + 1)` has at most `k + 1` digits. -/
theorem decDigits_len_le :
    ∀ (k n : Nat), n < 10 ^ (k + 1) → (decDigits n).length ≤ k + 1 := by
  intro k
  induction k with
  | zero =>
      intro n h
      rw [decDigits_def, if_pos (by simpa using h)]
      simp
  | succ k ih =>
      intro n h
      by_cases h10 : n < 10
      · rw [decDigits_def, if_pos h10]
        simp
      · rw [decDigits_def, if_neg h10, List.length_append]
        have hdiv : n / 10 < 10 ^ (k + 1) := by
          rw [Nat.div_lt_iff_lt_mul (by norm_num)]
          calc n < 10 ^ (k + 2) := h
          _ = 10 ^ (k + 1) * 10 := pow_succ 10 (k + 1)
        have := ih (n / 10) hdiv
        simp only [List.length_cons, List.length_nil]
        omega

/-- A number of at least `10 ^ k` has at least `k + 1` digits. -/
theorem decDigits_len_ge :
    ∀ (k n : Nat), 10 ^ k ≤ n → k + 1 ≤ (decDigits n).length := by
  intro k
  induction k with
  | zero =>
      intro n _
      have := List.length_pos.mpr (decDigits_ne_nil n)
      omega
  | succ k ih =>
      intro n h
      have hpow : (10 : Nat) ≤ 10 ^ (k + 1) := by
        calc (10 : Nat) = 10 ^ 1 := (pow_one 10).symm
        _ ≤ 10 ^ (k + 1) := Nat.pow_le_pow_right (by norm_num) (by omega)
      have h10 : ¬ n < 10 := by omega
      rw [decDigits_def, if_neg h10, List.length_append]
      have hdiv : 10 ^ k ≤ n / 10 := by
        rw [Nat.le_div_iff_mul_le (by norm_num)]
        calc 10 ^ k * 10 = 10 ^ (k + 1) := (pow_succ 10 k).symm
        _ ≤ n := h
      have := ih (n / 10) hdiv
      simp only [List.length_cons, List.length_nil]
      omega

/-- Fixed-width rendering has exactly the requested width. -/
theorem paddedDigits_length : ∀ (k n : Nat), (paddedDigits k n).length = k := by
  intro k
  induction k with
  | zero => intro n; rfl
  | succ k ih => intro n; simp [paddedDigits, ih]

/-- Fixed-width rendering of a single digit: zeros, then the digit. -/
theorem paddedDigits_small :
    ∀ (k n : Nat), n < 10 →
      paddedDigits (k + 1) n = List.replicate k 0 ++ [n] := by
  intro k
  induction k with
  | zero =>
      intro n _
      show n / 10 ^ 0 :: paddedDigits 0 (n % 10 ^ 0) = List.replicate 0 0 ++ [n]
      simp [paddedDigits]
  | succ k ih =>
      intro n h
      have hlt : n < 10 ^ (k + 1) := by
        calc n < 10 := h
        _ = 10 ^ 1 := (pow_one 10).symm
        _ ≤ 10 ^ (k + 1) := Nat.pow_le_pow_right (by norm_num) (by omega)
      show n / 10 ^ (k + 1) :: paddedDigits (k + 1) (n % 10 ^ (k + 1)) = _
      rw [Nat.div_eq_of_lt hlt, Nat.mod_eq_of_lt hlt, ih n h,
        List.replicate_succ, List.cons_append]

/-- Fixed-width rendering splits off the least significant digit. -/
theorem paddedDigits_split :
    ∀ (k n : Nat), n < 10 ^ (k + 1) →
      paddedDigits (k + 1) n = paddedDigits k (n / 10) ++ [n % 10] := by
  intro k
  induction k with
  | zero =>
      intro n h
      have h10 : n < 10 := by simpa using h
      show n / 10 ^ 0 :: paddedDigits 0 (n % 10 ^ 0) =
        paddedDigits 0 (n / 10) ++ [n % 10]
      simp [paddedDigits, Nat.mod_eq_of_lt h10]
  | succ k ih =>
      intro n _
      have hm : n % 10 ^ (k + 1) < 10 ^ (k + 1) :=
        Nat.mod_lt _ (Nat.pos_pow_of_pos _ (by norm_num))
      have hmul : (10 : Nat) ^ (k + 1) = 10 * 10 ^ k := by
        rw [pow_succ]; ring
      show n / 10 ^ (k + 1) :: paddedDigits (k + 1) (n % 10 ^ (k + 1)) = _
      rw [ih (n % 10 ^ (k + 1)) hm]
      have h1 : n % 10 ^ (k + 1) % 10 = n % 10 :=
        Nat.mod_mod_of_dvd n (dvd_pow_self 10 (Nat.succ_ne_zero k))
      have h2 : n % 10 ^ (k + 1) / 10 = n / 10 % 10 ^ k := by
        rw [hmul]
        exact Nat.mod_mul_right_div_self n 10 (10 ^ k)
      have h3 : n / 10 / 10 ^ k = n / 10 ^ (k + 1) := by
        rw [Nat.div_div_eq_div_mul, hmul]
      rw [h1, h2]
      show _ = (n / 10 / 10 ^ k :: paddedDigits k (n / 10 % 10 ^ k)) ++ [n % 10]
      rw [h3, List.cons_append]

/-- For values below the width bound, the zero-padded digit list is the
fixed-width rendering. -/
theorem paddedDigits_eq_decDigits (n : Nat) :
    ∀ k, 1 ≤ k → n < 10 ^ k →
      paddedDigits k n =
        List.replicate (k - (decDigits n).length) 0 ++ decDigits n := by
  induction n using Nat.strong_induction_on with
  | _ n ih =>
      intro k hk hn
      by_cases h10 : n < 10
      · rw [decDigits_def n, if_pos h10]
        obtain ⟨k', rfl⟩ : ∃ k', k = k' + 1 := ⟨k - 1, by omega⟩
        rw [paddedDigits_small k' n h10]
        simp
      · have hk2 : 2 ≤ k := by
          rcases Nat.lt_or_ge k 2 with hlt | hge
          · have hk1 : k = 1 := by omega
            rw [hk1, pow_one] at hn
            omega
          · exact hge
        obtain ⟨k', rfl⟩ : ∃ k', k = k' + 1 := ⟨k - 1, by omega⟩
        rw [paddedDigits_split k' n hn]
        have hdiv : n / 10 < 10 ^ k' := by
          rw [Nat.div_lt_iff_lt_mul (by norm_num)]
          calc n < 10 ^ (k' + 1) := hn
          _ = 10 ^ k' * 10 := pow_succ 10 k'
        rw [ih (n / 10) (Nat.div_lt_self (by omega) (by omega)) k' (by omega)
          hdiv]
        rw [decDigits_def n, if_neg h10, List.length_append]
        rw [List.append_assoc]
        have harith : k' - (decDigits (n / 10)).length =
            k' + 1 - ((decDigits (n / 10)).length + [n % 10].length) := by
          simp only [List.length_cons, List.length_nil]
          omega
        rw [harith]

/-- Fixed-width renderings compare like the numbers: for `a ≤ b` the digit
list of `a` is equal to, or lexicographically below, that of `b`. -/
theorem paddedDigits_mono :
    ∀ (k a b : Nat), a ≤ b →
      paddedDigits k a = paddedDigits k b ∨
        List.Lex (· < ·) (paddedDigits k a) (paddedDigits k b) := by
  intro k
  induction k with
  | zero => intro a b _; left; rfl
  | succ k ih =>
      intro a b hab
      by_cases hq : a / 10 ^ k = b / 10 ^ k
      · have ha := Nat.div_add_mod a (10 ^ k)
        have hb := Nat.div_add_mod b (10 ^ k)
        rw [hq] at ha
        have hr : a % 10 ^ k ≤ b % 10 ^ k := by omega
        rcases ih (a % 10 ^ k) (b % 10 ^ k) hr with heq | hlex
        · left
          show _ :: _ = _ :: _
          rw [hq, heq]
        · right
          show List.Lex (· < ·) (_ :: _) (_ :: _)
          rw [hq]
          exact List.Lex.cons hlex
      · right
        have hlt : a / 10 ^ k < b / 10 ^ k :=
          lt_of_le_of_ne (Nat.div_le_div_right hab) hq
        exact List.Lex.rel hlt

/-- Every entry of a fixed-width rendering within its bound is a digit. -/
theorem paddedDigits_lt_ten :
    ∀ (k n : Nat), n < 10 ^ k → ∀ d ∈ paddedDigits k n, d < 10 := by
  intro k
  induction k with
  | zero => intro n _ d hd; simp [paddedDigits] at hd
  | succ k ih =>
      intro n h d hd
      rcases List.mem_cons.mp hd with hhd | htl
      · subst hhd
        rw [Nat.div_lt_iff_lt_mul (Nat.pos_pow_of_pos _ (by norm_num))]
        calc n < 10 ^ (k + 1) := h
        _ = 10 * 10 ^ k := by rw [pow_succ]; ring
      · exact ih (n % 10 ^ k)
          (Nat.mod_lt _ (Nat.pos_pow_of_pos _ (by norm_num))) d htl

/-- `Nat.digitChar` is strictly monotone on digits. -/
theorem digitChar_lt_digitChar :
    ∀ a b : Fin 10, (a : Nat) < (b : Nat) →
      Nat.digitChar a < Nat.digitChar b := by decide

/-- Mapping digits to their characters preserves lexicographic order. -/
theorem lex_map_digitChar :
    ∀ (l1 l2 : List Nat), List.Lex (· < ·) l1 l2 → (∀ d ∈ l1, d < 10) →
      (∀ d ∈ l2, d < 10) →
      List.Lex (· < ·) (l1.map Nat.digitChar) (l2.map Nat.digitChar) := by
  intro l1 l2 hlex
  induction hlex with
  | nil =>
      intro _ _
      simp only [List.map_nil, List.map_cons]
      exact List.Lex.nil
  | cons h ih =>
      intro h1 h2
      simp only [List.map_cons]
      exact List.Lex.cons (ih (fun d hd => h1 d (List.mem_cons_of_mem _ hd))
        (fun d hd => h2 d (List.mem_cons_of_mem _ hd)))
  | rel hr =>
      intro h1 h2
      simp only [List.map_cons]
      rename_i a1 l1' a2 l2'
      have ha1 : a1 < 10 := h1 a1 (List.mem_cons_self _ _)
      have ha2 : a2 < 10 := h2 a2 (List.mem_cons_self _ _)
      exact List.Lex.rel (digitChar_lt_digitChar ⟨a1, ha1⟩ ⟨a2, ha2⟩ hr)

/-- Below the padding bound, `fmt015` is the width-15 rendering. -/
theorem fmt015_eq_padded (n : Nat) (h : n < 10 ^ 15) :
    fmt015 n = paddedDigits 15 n :=
  (paddedDigits_eq_decDigits n 15 (by norm_num) h).symm

/-- Below the padding bound, `fmt015` has exactly 15 digits. -/
theorem fmt015_length (n : Nat) (h : n < 10 ^ 15) : (fmt015 n).length = 15 := by
  rw [fmt015_eq_padded n h, paddedDigits_length]

/-- C9 counterexample.  `%015d` pads to a minimum width only: at the
timestamp `t = 10 ^ 12` seconds the millisecond value is `10 ^ 15`, whose
decimal rendering has 16 digits, so `next_id` returns 51 characters — the
claim asserts exactly 50 for every timestamp input. -/
theorem c9_counterexample_length_51 :
    hexTokA.length = 32 ∧ (next_id (10 ^ 15) hexTokA).length = 51 := by
  constructor
  · decide
  · have hle : (decDigits (10 ^ 15)).length ≤ 16 :=
      decDigits_len_le 15 (10 ^ 15) (by norm_num)
    have hge : 16 ≤ (decDigits (10 ^ 15)).length :=
      decDigits_len_ge 15 (10 ^ 15) (le_refl _)
    have hlen : (decDigits (10 ^ 15)).length = 16 := le_antisymm hle hge
    have htok : hexTokA.length = 32 := by decide
    rw [next_id, fmt015]
    rw [List.length_append, List.length_append, List.length_map,
      List.length_append, List.length_replicate, hlen, htok]
    rfl

/-- C9 amended.  For millisecond values below `10 ^ 15` (that is, for all
timestamps before the year 33658; out-of-range values produce longer
identifiers, see the counterexample) and 32-character tokens, `next_id`
returns exactly 50 characters, structured as the 15-digit zero-padded
decimal rendering of the millisecond value, then the token, then the
literal `"000"`; and the 15-character prefix is non-decreasing (equal or
lexicographically smaller) for non-decreasing millisecond values. -/
theorem c9_next_id_amended (ms1 ms2 : Nat) (tok1 tok2 : List Char)
    (hms : ms1 ≤ ms2) (hub : ms2 < 10 ^ 15)
    (ht1 : tok1.length = 32) (_ht2 : tok2.length = 32) :
    (next_id ms1 tok1).length = 50
  ∧ (next_id ms1 tok1).take 15 = (paddedDigits 15 ms1).map Nat.digitChar
  ∧ (next_id ms1 tok1).drop 15 = tok1 ++ ['0', '0', '0']
  ∧ ((next_id ms1 tok1).take 15 = (next_id ms2 tok2).take 15
     ∨ List.Lex (· < ·) ((next_id ms1 tok1).take 15)
         ((next_id ms2 tok2).take 15)) := by
  have hlb : ms1 < 10 ^ 15 := lt_of_le_of_lt hms hub
  have hfl1 : ((fmt015 ms1).map Nat.digitChar).length = 15 := by
    rw [List.length_map, fmt015_length ms1 hlb]
  have hfl2 : ((fmt015 ms2).map Nat.digitChar).length = 15 := by
    rw [List.length_map, fmt015_length ms2 hub]
  have htake1 : (next_id ms1 tok1).take 15 = (fmt015 ms1).map Nat.digitChar := by
    rw [next_id, List.append_assoc, ← hfl1, List.take_left]
  have htake2 : (next_id ms2 tok2).take 15 = (fmt015 ms2).map Nat.digitChar := by
    rw [next_id, List.append_assoc, ← hfl2, List.take_left]
  refine ⟨?_, ?_, ?_, ?_⟩
  · rw [next_id]
    simp [fmt015_length ms1 hlb, ht1]
  · rw [htake1, fmt015_eq_padded ms1 hlb]
  · rw [next_id, List.append_assoc, ← hfl1, List.drop_left]
  · rcases paddedDigits_mono 15 ms1 ms2 hms with heq | hlex
    · left
      rw [htake1, htake2, fmt015_eq_padded ms1 hlb, fmt015_eq_padded ms2 hub,
        heq]
    · right
      rw [htake1, htake2, fmt015_eq_padded ms1 hlb, fmt015_eq_padded ms2 hub]
      exact lex_map_digitChar _ _ hlex (paddedDigits_lt_ten 15 ms1 hlb)
        (paddedDigits_lt_ten 15 ms2 hub)

/-- Witness for C9 at the concrete millisecond values 5 and 7 and two
concrete 32-character tokens. -/
theorem c9_next_id_witness :
    (next_id 5 hexTokA).length = 50
  ∧ (next_id 5 hexTokA).take 15 = (paddedDigits 15 5).map Nat.digitChar
  ∧ (next_id 5 hexTokA).drop 15 = hexTokA ++ ['0', '0', '0']
  ∧ ((next_id 5 hexTokA).take 15 = (next_id 7 hexTokB).take 15
     ∨ List.Lex (· < ·) ((next_id 5 hexTokA).take 15)
         ((next_id 7 hexTokB).take 15)) :=
  c9_next_id_amended 5 7 hexTokA hexTokB (by decide) (by decide) (by decide)
    (by decide)
